import Mathlib

/-!
# Verification of swr-catalyst

A shallow embedding of the swr-catalyst library (structured SWR cache keys,
optimistic-update/rollback mutation hooks, and batch cache invalidation)
together with proofs about the embedded operations.

JavaScript runtime values are modelled by the inductive type `JSVal`;
machine behaviour that the library delegates to the external SWR cache
(cache reads/writes, remote calls) is modelled by explicit state passing
and by `Except`-valued outcomes supplied as parameters.
-/

/-- A JavaScript runtime value, as far as the library observes it.
Numbers are modelled as rationals (the claims under study never depend on
floating-point rounding); objects are insertion-ordered field lists. -/
inductive JSVal where
  | vundefined
  | vnull
  | vbool (b : Bool)
  | vnum (q : Rat)
  | vstr (s : String)
  | varr (elems : List JSVal)
  | vobj (fields : List (String × JSVal))
  deriving Repr

namespace JSVal

mutual

/-- Structural (strict-value) equality test on `JSVal`. -/
def beq : JSVal → JSVal → Bool
  | .vundefined, .vundefined => true
  | .vnull, .vnull => true
  | .vbool a, .vbool b => a == b
  | .vnum a, .vnum b => a == b
  | .vstr a, .vstr b => a == b
  | .varr a, .varr b => beqList a b
  | .vobj a, .vobj b => beqFields a b
  | _, _ => false

def beqList : List JSVal → List JSVal → Bool
  | [], [] => true
  | x :: xs, y :: ys => beq x y && beqList xs ys
  | _, _ => false

def beqFields : List (String × JSVal) → List (String × JSVal) → Bool
  | [], [] => true
  | (k, v) :: xs, (l, w) :: ys => k == l && beq v w && beqFields xs ys
  | _, _ => false

end

mutual

theorem beq_iff_eq : ∀ a b : JSVal, beq a b = true ↔ a = b
  | .vundefined, b => by cases b <;> simp [beq]
  | .vnull, b => by cases b <;> simp [beq]
  | .vbool a, b => by cases b <;> simp [beq]
  | .vnum a, b => by cases b <;> simp [beq]
  | .vstr a, b => by cases b <;> simp [beq]
  | .varr a, b => by
      cases b <;> simp [beq]
      exact beqList_iff_eq a _
  | .vobj a, b => by
      cases b <;> simp [beq]
      exact beqFields_iff_eq a _

theorem beqList_iff_eq : ∀ a b : List JSVal, beqList a b = true ↔ a = b
  | [], b => by cases b <;> simp [beqList]
  | x :: xs, b => by
      cases b with
      | nil => simp [beqList]
      | cons y ys =>
          simp only [beqList, Bool.and_eq_true, List.cons.injEq]
          rw [beq_iff_eq x y, beqList_iff_eq xs ys]

theorem beqFields_iff_eq : ∀ a b : List (String × JSVal), beqFields a b = true ↔ a = b
  | [], b => by cases b <;> simp [beqFields]
  | (k, v) :: xs, b => by
      cases b with
      | nil => simp [beqFields]
      | cons y ys =>
          obtain ⟨l, w⟩ := y
          simp [beqFields, beq_iff_eq v w, beqFields_iff_eq xs ys]

end

instance : DecidableEq JSVal := fun a b =>
  decidable_of_iff _ (beq_iff_eq a b)

/-- JavaScript truthiness of a value (`Boolean(v)`). -/
def jsTruthy : JSVal → Bool
  | .vundefined => false
  | .vnull => false
  | .vbool b => b
  | .vnum q => decide (q ≠ 0)
  | .vstr s => decide (s ≠ "")
  | .varr _ => true
  | .vobj _ => true

/-- Property lookup `v[name]` on an object; `none` models `undefined`
(and non-objects, which carry no own properties in this model). -/
def getField (name : String) : JSVal → Option JSVal
  | .vobj fields => fields.lookup name
  | _ => none

/-- The JavaScript `name in v` test used by `extractSWRKey`'s object branch. -/
def hasField (name : String) (v : JSVal) : Bool :=
  (v.getField name).isSome

/-- JSON string-literal escaping used by `JSON.stringify` (injective on the
characters that matter for equality comparisons). -/
def jsonEscapeChar (c : Char) : String :=
  if c = '"' then "\\\""
  else if c = '\\' then "\\\\"
  else if c = '\n' then "\\n"
  else if c = '\r' then "\\r"
  else if c = '\t' then "\\t"
  else if c.toNat < 0x20 then "\\u" ++ String.mk (Nat.toDigits 16 c.toNat)
  else String.singleton c

/-- `JSON.stringify` of a string value. -/
def jsonQuote (s : String) : String :=
  "\"" ++ String.join (s.toList.map jsonEscapeChar) ++ "\""

mutual

/-- `JSON.stringify` as observed by `deepEqual`: `none` models the JavaScript
result `undefined` (stringifying `undefined` itself); object fields whose
value stringifies to `undefined` are dropped; array holes become `null`. -/
def jsonStringify : JSVal → Option String
  | .vundefined => none
  | .vnull => some "null"
  | .vbool b => some (cond b "true" "false")
  | .vnum q => some (toString q)
  | .vstr s => some (jsonQuote s)
  | .varr es => some ("[" ++ jsonStringifyArr es ++ "]")
  | .vobj fs => some ("\x7b" ++ jsonStringifyFields fs ++ "\x7d")

def jsonStringifyArr : List JSVal → String
  | [] => ""
  | [e] => (jsonStringify e).getD "null"
  | e :: rest => (jsonStringify e).getD "null" ++ "," ++ jsonStringifyArr rest

def jsonStringifyFields : List (String × JSVal) → String
  | [] => ""
  | (k, v) :: rest =>
      match jsonStringify v with
      | none => jsonStringifyFields rest
      | some sv =>
          let entry := jsonQuote k ++ ":" ++ sv
          let tail := jsonStringifyFields rest
          if tail = "" then entry else entry ++ "," ++ tail

end

/-- Whether `typeof v === "object"` holds and `v` is not `null`
(the object test used by `deepEqual` after the null guard). -/
def isObjectLike : JSVal → Bool
  | .varr _ => true
  | .vobj _ => true
  | _ => false

/-- Whether `v == null` holds in JavaScript (loose equality: `null` or
`undefined`). -/
def isNullish : JSVal → Bool
  | .vnull => true
  | .vundefined => true
  | _ => false

end JSVal

open JSVal in
/-- `deepEqual` from `src/hooks/useStableKey/utils/deepEqual/index.ts`:
reference/strict equality short-circuit, strict equality for nullish values
and non-objects, and `JSON.stringify` comparison for objects.  (The `a === b`
reference shortcut for objects is subsumed by the stringify comparison, so
modelling it with structural equality does not change the result; the
`try/catch` fallback is unreachable because inductive values are acyclic.) -/
def deepEqual (a b : JSVal) : Bool :=
  if a = b then true
  else if isNullish a || isNullish b then decide (a = b)
  else if ¬ (isObjectLike a ∧ isObjectLike b) then false
  else decide (jsonStringify a = jsonStringify b)

/-! ## Key codec: `extractSWRKey` (src/utils/extractSWRKey/index.ts) -/

namespace ExtractSWRKey

/-- `unescapeString`: the global replacement `str.replace(/\\(.)/g, "$1")`.
The regex `.` does not match line terminators, so a backslash immediately
followed by a newline (or carriage return) is left untouched and scanning
resumes at the line terminator. -/
def unescapeChars : List Char → List Char
  | [] => []
  | [c] => [c]
  | c :: e :: rest =>
      if c = '\\' then
        if e = '\n' ∨ e = '\r' then c :: unescapeChars (e :: rest)
        else e :: unescapeChars rest
      else c :: unescapeChars (e :: rest)

/-- One anchored attempt of the tail `((?:[^"\\]|\\.)*)"` of the segment
patterns: greedily consume the capture body and require a closing quote,
returning the raw (still escaped) capture together with the residue after
the closing quote.  Greedy matching is deterministic here: the body can
never consume an unescaped `"`, so no backtracking alternative exists when
the closing quote is missing (see `ID_PATTERN` and friends in the source). -/
def captureQuoted : List Char → Option (List Char × List Char)
  | [] => none
  | [c] => if c = '"' then some ([], []) else none
  | c :: e :: rest =>
      if c = '"' then some ([], e :: rest)
      else if c = '\\' then
        if e = '\n' ∨ e = '\r' then none
        else (captureQuoted rest).map (fun p => (c :: e :: p.1, p.2))
      else (captureQuoted (e :: rest)).map (fun p => (c :: p.1, p.2))

/-- `String.prototype.match` for the segment patterns: try an anchored match
at each position from left to right (the literal pattern prefix `pat`, then
the quoted capture), returning the first successful capture. -/
def findCapture (pat : List Char) : List Char → Option (List Char)
  | [] => none
  | c :: rest =>
      match (if pat.isPrefixOf (c :: rest) then captureQuoted ((c :: rest).drop pat.length)
             else none) with
      | some p => some p.1
      | none => findCapture pat rest

/-- The literal prefix of `ID_PATTERN = /#id:"((?:[^"\¥]|¥¥.)*)"/` (backslash
written as ¥ in this comment to keep it literal). -/
def idPat : List Char := ['#', 'i', 'd', ':', '"']

/-- The literal prefix of `GROUP_PATTERN`. -/
def groupPat : List Char := ['g', 'r', 'o', 'u', 'p', ':', '"']

/-- The literal prefix of `DATA_PATTERN`. -/
def dataPat : List Char := ['d', 'a', 't', 'a', ':', '"']

/-- `tryCurrentFormat`: parse the legacy serialized key string.  Requires the
`#id:` prefix, a successful id capture, and assembles the structured key with
`group`/`data` decoding to `undefined` when their segments are absent. -/
def tryCurrentFormat (cs : List Char) : Option JSVal :=
  if ¬ (['#', 'i', 'd', ':'].isPrefixOf cs) then none
  else
    match findCapture idPat cs with
    | none => none
    | some idCap =>
        let groupVal : JSVal :=
          match findCapture groupPat cs with
          | some g => .vstr ⟨unescapeChars g⟩
          | none => .vundefined
        let dataVal : JSVal :=
          match findCapture dataPat cs with
          | some d => .vstr ⟨unescapeChars d⟩
          | none => .vundefined
        some (.vobj [("id", .vstr ⟨unescapeChars idCap⟩), ("group", groupVal),
          ("data", dataVal)])

/-! ### A strict JSON parser modelling `JSON.parse` for `tryJSONFormat`. -/

/-- JSON whitespace. -/
def isJsonWs (c : Char) : Bool :=
  c = ' ' ∨ c = '\t' ∨ c = '\n' ∨ c = '\r'

def skipWs (cs : List Char) : List Char := cs.dropWhile isJsonWs

def isHexDigit (c : Char) : Bool :=
  ('0' ≤ c ∧ c ≤ '9') ∨ ('a' ≤ c ∧ c ≤ 'f') ∨ ('A' ≤ c ∧ c ≤ 'F')

def hexVal (c : Char) : Nat :=
  if '0' ≤ c ∧ c ≤ '9' then c.toNat - '0'.toNat
  else if 'a' ≤ c ∧ c ≤ 'f' then c.toNat - 'a'.toNat + 10
  else c.toNat - 'A'.toNat + 10

/-- Parse the body of a JSON string literal (after the opening quote). -/
def parseJString : Nat → List Char → Option (List Char × List Char)
  | 0, _ => none
  | _ + 1, [] => none
  | fuel + 1, c :: rest =>
      if c = '"' then some ([], rest)
      else if c = '\\' then
        match rest with
        | [] => none
        | e :: rest2 =>
            let simpleEsc : Option Char :=
              if e = '"' then some '"'
              else if e = '\\' then some '\\'
              else if e = '/' then some '/'
              else if e = 'b' then some (Char.ofNat 8)
              else if e = 'f' then some (Char.ofNat 12)
              else if e = 'n' then some '\n'
              else if e = 'r' then some '\r'
              else if e = 't' then some '\t'
              else none
            match simpleEsc with
            | some ch => (parseJString fuel rest2).map (fun p => (ch :: p.1, p.2))
            | none =>
                if e = 'u' then
                  match rest2 with
                  | h1 :: h2 :: h3 :: h4 :: rest3 =>
                      if isHexDigit h1 ∧ isHexDigit h2 ∧ isHexDigit h3 ∧ isHexDigit h4 then
                        let n := ((hexVal h1 * 16 + hexVal h2) * 16 + hexVal h3) * 16 + hexVal h4
                        (parseJString fuel rest3).map (fun p => (Char.ofNat n :: p.1, p.2))
                      else none
                  | _ => none
                else none
      else if c.toNat < 0x20 then none
      else (parseJString fuel rest).map (fun p => (c :: p.1, p.2))

/-- Take the leading run of decimal digits. -/
def takeDigits (cs : List Char) : List Char × List Char :=
  (cs.takeWhile (fun c => '0' ≤ c ∧ c ≤ '9'), cs.dropWhile (fun c => '0' ≤ c ∧ c ≤ '9'))

def digitsToNat (ds : List Char) : Nat :=
  ds.foldl (fun acc c => acc * 10 + (c.toNat - '0'.toNat)) 0

/-- Parse a JSON number literal into a rational. -/
def parseJNumber (cs : List Char) : Option (JSVal × List Char) :=
  let (neg, cs1) := match cs with
    | '-' :: rest => (true, rest)
    | _ => (false, cs)
  let (intDs, cs2) := takeDigits cs1
  if intDs = [] then none
  else if intDs.length > 1 ∧ intDs.head? = some '0' then none
  else
    let (fracDs, cs3) := match cs2 with
      | '.' :: rest =>
          let (ds, r) := takeDigits rest
          (some ds, r)
      | _ => (none, cs2)
    match fracDs with
    | some [] => none
    | _ =>
      let (expPart, cs4) : Option (Bool × List Char) × List Char := match cs3 with
        | 'e' :: rest | 'E' :: rest =>
            let (esign, rest2) := match rest with
              | '+' :: r => (false, r)
              | '-' :: r => (true, r)
              | _ => (false, rest)
            let (eds, r) := takeDigits rest2
            (some (esign, eds), r)
        | _ => (none, cs3)
      match expPart with
      | some (_, []) => none
      | _ =>
        let fds := (fracDs.getD [])
        let mantissa : Int := Int.ofNat (digitsToNat (intDs ++ fds))
        let mantissa := if neg then -mantissa else mantissa
        let exp10 : Int :=
          (match expPart with
           | some (esign, eds) =>
               let e := Int.ofNat (digitsToNat eds)
               if esign then -e else e
           | none => 0) - Int.ofNat fds.length
        let q : Rat :=
          if 0 ≤ exp10 then (mantissa : Rat) * (10 : Rat) ^ exp10.toNat
          else (mantissa : Rat) / (10 : Rat) ^ (-exp10).toNat
        some (.vnum q, cs4)

/-- Combine a parsed object member with the members parsed after it:
JavaScript keeps the position of the first occurrence of a key but the value
of the last, so a later duplicate's value replaces `v` here. -/
def insertField (k : String) (v : JSVal) (rest : List (String × JSVal)) :
    List (String × JSVal) :=
  match rest.lookup k with
  | some w => (k, w) :: rest.eraseP (fun p => p.1 == k)
  | none => (k, v) :: rest

mutual

/-- Parse one JSON value (fuelled recursion; fuel bounds nesting depth). -/
def parseJValue : Nat → List Char → Option (JSVal × List Char)
  | 0, _ => none
  | fuel + 1, cs =>
      match skipWs cs with
      | 'n' :: 'u' :: 'l' :: 'l' :: rest => some (.vnull, rest)
      | 't' :: 'r' :: 'u' :: 'e' :: rest => some (.vbool true, rest)
      | 'f' :: 'a' :: 'l' :: 's' :: 'e' :: rest => some (.vbool false, rest)
      | '"' :: rest =>
          (parseJString (rest.length + 1) rest).map (fun p => (.vstr ⟨p.1⟩, p.2))
      | '[' :: rest =>
          (match skipWs rest with
           | ']' :: rest2 => some (.varr [], rest2)
           | _ => (parseJElems fuel rest).map (fun p => (.varr p.1, p.2)))
      | '{' :: rest =>
          (match skipWs rest with
           | '}' :: rest2 => some (.vobj [], rest2)
           | _ => (parseJMembers fuel rest).map (fun p => (.vobj p.1, p.2)))
      | rest => parseJNumber rest

/-- Parse one-or-more array elements up to the closing bracket. -/
def parseJElems : Nat → List Char → Option (List JSVal × List Char)
  | 0, _ => none
  | fuel + 1, cs =>
      match parseJValue fuel cs with
      | none => none
      | some (v, r) =>
          match skipWs r with
          | ',' :: r2 =>
              (parseJElems fuel r2).map (fun p => (v :: p.1, p.2))
          | ']' :: r2 => some ([v], r2)
          | _ => none

/-- Parse one-or-more object members up to the closing brace. -/
def parseJMembers : Nat → List Char → Option (List (String × JSVal) × List Char)
  | 0, _ => none
  | fuel + 1, cs =>
      match skipWs cs with
      | '"' :: rest =>
          match parseJString (rest.length + 1) rest with
          | none => none
          | some (kcs, r) =>
              match skipWs r with
              | ':' :: r2 =>
                  (match parseJValue fuel r2 with
                   | none => none
                   | some (v, r3) =>
                       match skipWs r3 with
                       | ',' :: r4 =>
                           (parseJMembers fuel r4).map
                             (fun p => (insertField ⟨kcs⟩ v p.1, p.2))
                       | '}' :: r4 => some ([(⟨kcs⟩, v)], r4)
                       | _ => none)
              | _ => none
      | _ => none

end

/-- `JSON.parse`: a whole-input JSON document (no trailing garbage). -/
def parseJSON (s : String) : Option JSVal :=
  let cs := s.toList
  match parseJValue (cs.length + 1) cs with
  | some (v, rest) => if skipWs rest = [] then some v else none
  | none => none

/-- `tryJSONFormat`: parse as JSON and keep the result only when it is a
truthy object carrying an `id` field (arrays have no `id` property). -/
def tryJSONFormat (s : String) : Option JSVal :=
  match parseJSON s with
  | some (.vobj fs) => if JSVal.hasField "id" (.vobj fs) then some (.vobj fs) else none
  | _ => none

/-- The string-strategy tail of `extractSWRKey`: for a string key try the
legacy format and then JSON; everything that is not an object-with-id or a
string decodes to `null`. -/
def decodeNonObject : JSVal → Option JSVal
  | .vstr s =>
      (match tryCurrentFormat s.toList with
       | some k => some k
       | none => tryJSONFormat s)
  | _ => none

end ExtractSWRKey

open ExtractSWRKey in
/-- `extractSWRKey`: direct-object passthrough, then the legacy serialized
string format, then strict JSON, and finally `none` (modelling the `null`
return; decode failure is not an error). -/
def extractSWRKey (cacheKey : JSVal) : Option JSVal :=
  match cacheKey with
  | .vobj fs =>
      if JSVal.hasField "id" (.vobj fs) then some (.vobj fs) else decodeNonObject cacheKey
  | _ => decodeNonObject cacheKey

/-- ASCII alphanumeric characters. -/
def isAlnumChar (c : Char) : Bool :=
  decide (('0' ≤ c ∧ c ≤ '9') ∨ ('a' ≤ c ∧ c ≤ 'z') ∨ ('A' ≤ c ∧ c ≤ 'Z'))

/-- A non-empty ASCII-alphanumeric character list. -/
def AlnumNE (s : List Char) : Prop :=
  s ≠ [] ∧ ∀ c ∈ s, isAlnumChar c = true

instance (s : List Char) : Decidable (AlnumNE s) := by
  unfold AlnumNE; infer_instance

/-- Modelled from the spec: the legacy serialized string form consumed by
the codec — the marker `#id:"<id>"` followed by optional `,group:"<group>"`
and `,data:"<data>"` segments (the repository only decodes this format; the
external cache produces it). -/
def encodeKey (id : List Char) (group data : Option (List Char)) : List Char :=
  ['#', 'i', 'd', ':', '"'] ++ id ++ ['"'] ++
    (match group with
     | some g => [','] ++ ['g', 'r', 'o', 'u', 'p', ':', '"'] ++ g ++ ['"']
     | none => []) ++
    (match data with
     | some d => [','] ++ ['d', 'a', 't', 'a', ':', '"'] ++ d ++ ['"']
     | none => [])

/-- The structured key a caller would have encoded: only the present fields
(a key without a `group`/`data` segment simply lacks that field). -/
def legacyKey (id : List Char) (group data : Option (List Char)) : JSVal :=
  .vobj ([("id", JSVal.vstr ⟨id⟩)] ++
    (match group with
     | some g => [("group", JSVal.vstr ⟨g⟩)]
     | none => []) ++
    (match data with
     | some d => [("data", JSVal.vstr ⟨d⟩)]
     | none => []))

/-! ## Structured keys, the SWR cache, and `useStableKey` -/

/-- A non-null structured `SWRKey` value `{ id, group?, data }`
(src/types: `SWRKey<T>`). -/
structure SKey where
  id : String
  group : Option String
  data : JSVal
  deriving DecidableEq, Repr

/-- A structured key together with an object-identity token, so that
"returns the same reference" is expressible in the embedding. -/
structure RefSKey where
  ref : Nat
  val : SKey
  deriving DecidableEq, Repr

open JSVal in
/-- `useStableKey` (src/hooks/useStableKey/index.ts) as a pure function of
the incoming key, the ref cell's previous content, and a fresh identity
token for any newly constructed object. -/
def useStableKey (key : Option SKey) (prev : Option RefSKey) (fresh : Nat) :
    Option RefSKey :=
  match key with
  | none => none
  | some k =>
      if k.id = "" ∨ jsTruthy k.data = false then none
      else
        match prev with
        | some p =>
            if p.val.id = k.id ∧ p.val.group = k.group ∧ deepEqual p.val.data k.data then
              some p
            else some ⟨fresh, k⟩
        | none => some ⟨fresh, k⟩

/-- The SWR cache, restricted to what the library observes: for each
structured key the `.data` of its cache entry.  Absent entries read as
`undefined`, matching `swrGetCache(cache, key)?.data`. -/
abbrev CacheMap := List (SKey × JSVal)

/-- `swrGetCache(cache, key)?.data`: `undefined` for a null key or a miss. -/
def cacheRead (cache : CacheMap) (k : Option SKey) : JSVal :=
  match k with
  | none => .vundefined
  | some key =>
      match cache.lookup key with
      | some v => v
      | none => .vundefined

/-- A successful `swrMutate(mutate, key, v, false)`: store `v` at `key`
without revalidation.  A null key is a no-op (SWR matches nothing). -/
def cacheStore (cache : CacheMap) (k : Option SKey) (v : JSVal) : CacheMap :=
  match k with
  | none => cache
  | some key => (key, v) :: cache.eraseP (fun p => p.1 == key)

/-! ## `MutationError` (src/errors) and `createMutationError` -/

/-- The mutation operation discriminator. -/
inductive MutationOp where
  | create
  | update
  | delete
  deriving DecidableEq, Repr

/-- The lowercase operation word used in internal error messages. -/
def MutationOp.text : MutationOp → String
  | .create => "create"
  | .update => "update"
  | .delete => "delete"

/-- `MutationErrorContext` attached to every mutation failure. -/
structure MutationErrorContext where
  operation : MutationOp
  key : Option SKey
  data : Option JSVal
  id : Option JSVal
  timestamp : Nat
  deriving DecidableEq, Repr

/-- The `MutationError` class: message, context and the raw original cause.
Its `name` is the fixed discriminator (see `MutationError.name`). -/
structure MutationError where
  message : String
  context : MutationErrorContext
  originalError : JSVal
  deriving DecidableEq, Repr

/-- The readonly `name = "MutationError"` class field. -/
def MutationError.name (_ : MutationError) : String := "MutationError"

/-- `String(v)` as used in error messages.  Number/array/object formatting
differs cosmetically from JavaScript; no claim inspects those strings. -/
def jsToString : JSVal → String
  | .vstr s => s
  | .vnull => "null"
  | .vundefined => "undefined"
  | .vbool b => cond b "true" "false"
  | .vnum q => toString q
  | .varr _ => "[array]"
  | .vobj _ => "[object Object]"

/-- `err instanceof Error ? err.message : String(err)`.  Error instances are
modelled as objects carrying a string `message` field. -/
def causeMessage : JSVal → String
  | .vobj fs =>
      match fs.lookup "message" with
      | some (.vstr m) => m
      | _ => jsToString (.vobj fs)
  | v => jsToString v

open JSVal in
/-- `createMutationError` (hooks/shared/helpers): builds the standardized
`MutationError` with message, context and the raw cause. -/
def createMutationError (operation : MutationOp) (stableKey : Option SKey)
    (err : JSVal) (dataCtx : Option JSVal) (idCtx : Option JSVal) (now : Nat) :
    MutationError :=
  let resource : String :=
    match stableKey with
    | some k => if k.id = "" then "unknown" else k.id
    | none => "unknown"
  let idPart : String :=
    match idCtx with
    | some i => if jsTruthy i then " with ID " ++ jsToString i else ""
    | none => ""
  { message := "Failed to " ++ operation.text ++ " resource \"" ++ resource ++ "\"" ++
      idPart ++ ". " ++ causeMessage err
    context := ⟨operation, stableKey, dataCtx, idCtx, now⟩
    originalError := err }

/-- `getUserMessage()`: user verb plus `key?.id || "resource"`. -/
def MutationError.getUserMessage (e : MutationError) : String :=
  let operationText : String :=
    match e.context.operation with
    | .create => "add"
    | .update => "update"
    | .delete => "delete"
  let resource : String :=
    match e.context.key with
    | some k => if k.id = "" then "resource" else k.id
    | none => "resource"
  "Failed to " ++ operationText ++ " " ++ resource ++ ". Please try again."

/-- A value delivered through a promise rejection: either a raw JavaScript
value or a `MutationError` instance. -/
inductive JSException where
  | raw (v : JSVal)
  | mutation (e : MutationError)
  deriving DecidableEq, Repr

/-- Reading `.name` off a thrown value (the class fixes it for
`MutationError`; raw values expose whatever `name` property they carry). -/
def JSException.errorName : JSException → JSVal
  | .mutation _ => .vstr "MutationError"
  | .raw v => (v.getField "name").getD .vundefined

/-- Whether the thrown value is a `MutationError` instance. -/
def JSException.isMutationError : JSException → Bool
  | .mutation _ => true
  | .raw _ => false

/-! ## The hook triggers (useSWRCreate / useSWRUpdate / useSWRDelete)

Each trigger is embedded as a pure function of: the stable key, the
configured options, the outcome of the remote call, the outcomes of the
cache writes the external cache may reject (`WriteOutcomes`), the mounted
flag at entry and after the remote call, the current time, the cache, and
the trigger argument(s).  It returns the settled promise outcome together
with the final cache.  React state (`isMutating`, `error`) is not part of
any claim under study and is not tracked. -/

/-- Rejection behaviour of the three external cache calls a trigger makes:
`none` means the call succeeds, `some e` that it rejects with raw cause `e`. -/
structure WriteOutcomes where
  optimisticWrite : Option JSVal := none
  rollbackWrite : Option JSVal := none
  revalidateCall : Option JSVal := none
  deriving Repr

open JSVal in
/-- `useSWRDelete(...)` `trigger(id)` (src/hooks/useSWRDelete/index.ts).
A successful revalidation is an external refetch and leaves the modelled
cache unchanged; a rejected revalidation is caught by the same `catch`
block as a remote failure, exactly as in the source. -/
def triggerDelete (stableKey : Option SKey)
    (optimisticUpdate : Option (JSVal → JSVal → JSVal)) (rollbackOnError : Bool)
    (deleteResult : Except JSVal JSVal) (wo : WriteOutcomes)
    (mounted0 mounted1 : Bool) (now : Nat) (cache : CacheMap) (id : JSVal) :
    Except JSException JSVal × CacheMap :=
  if mounted0 = false then (.ok .vundefined, cache)
  else
    let originalData := cacheRead cache stableKey
    let applied : Except JSVal CacheMap :=
      match optimisticUpdate with
      | none => .ok cache
      | some f =>
          match wo.optimisticWrite with
          | some e => .error e
          | none => .ok (cacheStore cache stableKey (f originalData id))
    match applied with
    | .error e => (.error (.raw e), cache)
    | .ok cache1 =>
        let onCatch (err : JSVal) : Except JSException JSVal × CacheMap :=
          if rollbackOnError && optimisticUpdate.isSome then
            match wo.rollbackWrite with
            | some e2 => (.error (.raw e2), cache1)
            | none =>
                (.error (.mutation
                    (createMutationError .delete stableKey err none (some id) now)),
                  cacheStore cache1 stableKey originalData)
          else
            (.error (.mutation
                (createMutationError .delete stableKey err none (some id) now)), cache1)
        match deleteResult with
        | .error err => onCatch err
        | .ok result =>
            if mounted1 = false then (.ok result, cache1)
            else
              match wo.revalidateCall with
              | some e => onCatch e
              | none => (.ok result, cache1)

open JSVal in
/-- `useSWRCreate(...)` `trigger(data)` (src/hooks/useSWRCreate/index.ts). -/
def triggerCreate (stableKey : Option SKey)
    (optimisticUpdate : Option (JSVal → JSVal → JSVal)) (rollbackOnError : Bool)
    (createResult : Except JSVal JSVal) (wo : WriteOutcomes)
    (mounted0 mounted1 : Bool) (now : Nat) (cache : CacheMap) (data : JSVal) :
    Except JSException JSVal × CacheMap :=
  if mounted0 = false then (.ok .vundefined, cache)
  else
    let originalData := cacheRead cache stableKey
    let applied : Except JSVal CacheMap :=
      match optimisticUpdate with
      | none => .ok cache
      | some f =>
          match wo.optimisticWrite with
          | some e => .error e
          | none => .ok (cacheStore cache stableKey (f originalData data))
    match applied with
    | .error e => (.error (.raw e), cache)
    | .ok cache1 =>
        let onCatch (err : JSVal) : Except JSException JSVal × CacheMap :=
          if rollbackOnError && optimisticUpdate.isSome then
            match wo.rollbackWrite with
            | some e2 => (.error (.raw e2), cache1)
            | none =>
                (.error (.mutation
                    (createMutationError .create stableKey err (some data) none now)),
                  cacheStore cache1 stableKey originalData)
          else
            (.error (.mutation
                (createMutationError .create stableKey err (some data) none now)), cache1)
        match createResult with
        | .error err => onCatch err
        | .ok result =>
            if mounted1 = false then (.ok result, cache1)
            else
              match wo.revalidateCall with
              | some e => onCatch e
              | none => (.ok result, cache1)

open JSVal in
/-- `useSWRUpdate(...)` `trigger(id, data)` (src/hooks/useSWRUpdate): the
optimistic transform receives the payload `{ id, data }`. -/
def triggerUpdate (stableKey : Option SKey)
    (optimisticUpdate : Option (JSVal → JSVal → JSVal)) (rollbackOnError : Bool)
    (updateResult : Except JSVal JSVal) (wo : WriteOutcomes)
    (mounted0 mounted1 : Bool) (now : Nat) (cache : CacheMap) (id data : JSVal) :
    Except JSException JSVal × CacheMap :=
  if mounted0 = false then (.ok .vundefined, cache)
  else
    let payload : JSVal := .vobj [("id", id), ("data", data)]
    let originalData := cacheRead cache stableKey
    let applied : Except JSVal CacheMap :=
      match optimisticUpdate with
      | none => .ok cache
      | some f =>
          match wo.optimisticWrite with
          | some e => .error e
          | none => .ok (cacheStore cache stableKey (f originalData payload))
    match applied with
    | .error e => (.error (.raw e), cache)
    | .ok cache1 =>
        let onCatch (err : JSVal) : Except JSException JSVal × CacheMap :=
          if rollbackOnError && optimisticUpdate.isSome then
            match wo.rollbackWrite with
            | some e2 => (.error (.raw e2), cache1)
            | none =>
                (.error (.mutation
                    (createMutationError .update stableKey err (some data) (some id) now)),
                  cacheStore cache1 stableKey originalData)
          else
            (.error (.mutation
                (createMutationError .update stableKey err (some data) (some id) now)), cache1)
        match updateResult with
        | .error err => onCatch err
        | .ok result =>
            if mounted1 = false then (.ok result, cache1)
            else
              match wo.revalidateCall with
              | some e => onCatch e
              | none => (.ok result, cache1)

/-! ## Batch invalidation: `mutateById`, `mutateByGroup`, `resetCache` -/

/-- The argument triple these utilities pass to SWR's global `mutate`:
a key filter, an optional constant-returning data updater (`some v` models
`() => v`, `none` models `undefined`), and the `revalidate` option value. -/
structure MutateCall where
  pred : JSVal → Bool
  updater : Option JSVal
  revalidate : Option Bool

/-- The string-or-array id argument of `mutateById`. -/
def normalizeIds : String ⊕ List String → List String
  | .inl s => [s]
  | .inr l => l

open JSVal in
/-- The call `mutateById` makes to the global `mutate`
(src/utils/mutateById/index.ts).  `optRevalidate` is the caller's
`options.revalidate` when explicitly supplied. -/
def mutateByIdCall (ids : String ⊕ List String) (newData : Option JSVal)
    (optRevalidate : Option Bool) : MutateCall :=
  let idList := normalizeIds ids
  { pred := fun cacheKey =>
      match extractSWRKey cacheKey with
      | some extractedKey =>
          match extractedKey.getField "id" with
          | some (.vstr s) => idList.contains s
          | _ => false
      | none => false
    updater :=
      match newData with
      | some v => if jsTruthy v then some v else none
      | none => none
    revalidate :=
      some (optRevalidate.getD (!((newData.map jsTruthy).getD false))) }

open JSVal in
/-- `mutateById`'s caller-visible outcome, given the outcome of the
underlying global `mutate` call: failures are wrapped in a `MutationError`
with operation `update`, null key and the attempted data. -/
def mutateByIdResult (ids : String ⊕ List String) (newData : Option JSVal)
    (mutateOutcome : Except JSVal Unit) (now : Nat) : Except MutationError Unit :=
  match mutateOutcome with
  | .ok _ => .ok ()
  | .error e =>
      .error
        { message := "Failed to mutate cache by ID(s): " ++
            String.intercalate ", " (normalizeIds ids) ++ ". " ++ causeMessage e
          context := ⟨.update, none, newData, none, now⟩
          originalError := e }

open JSVal in
/-- The call `mutateByGroup` makes to the global `mutate`
(src/utils/mutateByGroup/index.ts): matches on a truthy decoded `group`. -/
def mutateByGroupCall (group : String ⊕ List String) (newData : Option JSVal)
    (optRevalidate : Option Bool) : MutateCall :=
  let groups := normalizeIds group
  { pred := fun key =>
      match extractSWRKey key with
      | some extracted =>
          match extracted.getField "group" with
          | some (.vstr s) => if s = "" then false else groups.contains s
          | _ => false
      | none => false
    updater :=
      match newData with
      | some v => if jsTruthy v then some v else none
      | none => none
    revalidate :=
      some (optRevalidate.getD (!((newData.map jsTruthy).getD false))) }

open JSVal in
/-- `mutateByGroup`'s caller-visible outcome on an underlying failure. -/
def mutateByGroupResult (group : String ⊕ List String) (newData : Option JSVal)
    (mutateOutcome : Except JSVal Unit) (now : Nat) : Except MutationError Unit :=
  match mutateOutcome with
  | .ok _ => .ok ()
  | .error e =>
      .error
        { message := "Failed to mutate cache by group(s): " ++
            String.intercalate ", " (normalizeIds group) ++ ". " ++ causeMessage e
          context := ⟨.update, none, newData, none, now⟩
          originalError := e }

/-- The `preservedKeys` argument of `resetCache`
(`string | string[] | null | undefined`); an omitted argument is
`undefinedArg` and triggers the `= []` parameter default. -/
inductive PreservedKeysArg where
  | str (s : String)
  | list (l : List String)
  | nullArg
  | undefinedArg
  deriving DecidableEq, Repr

/-- The `keys` normalization at the top of `resetCache`: arrays pass
through, truthy strings become singletons, and `null`/`""` give `null`
(clear everything); an omitted argument defaults to `[]`. -/
def normalizePreserved : PreservedKeysArg → Option (List String)
  | .list l => some l
  | .undefinedArg => some []
  | .str s => if s = "" then none else some [s]
  | .nullArg => none

open JSVal in
/-- The call `resetCache` makes to the global `mutate`
(src/utils/resetCache/index.ts): data is always `undefined` and the
positional revalidate flag is always `false`. -/
def resetCacheCall (arg : PreservedKeysArg) : MutateCall :=
  let keys := normalizePreserved arg
  { pred := fun key =>
      match keys with
      | none => true
      | some ks =>
          match extractSWRKey key with
          | some extracted =>
              !(match extracted.getField "id" with
                | some (.vstr s) => ks.contains s
                | _ => false)
          | none => true
    updater := none
    revalidate := some false }

open JSVal in
/-- `resetCache`'s caller-visible outcome on an underlying failure:
operation `delete`, null key, preserved ids mentioned in the message. -/
def resetCacheResult (arg : PreservedKeysArg) (mutateOutcome : Except JSVal Unit)
    (now : Nat) : Except MutationError Unit :=
  match mutateOutcome with
  | .ok _ => .ok ()
  | .error e =>
      .error
        { message := "Failed to reset cache" ++
            (match normalizePreserved arg with
             | some ks => " (preserving: " ++ String.intercalate ", " ks ++ ")"
             | none => "") ++ ". " ++ causeMessage e
          context := ⟨.delete, none, none, none, now⟩
          originalError := e }

/-! ## `to` (src/utils/to/index.ts) -/

/-- `to(promise)`: Go-style settling of a promise into a `[data, error]`
pair; by construction it always resolves (it is a total function into a
pair, never an exception). -/
def «to» (promise : Except JSVal JSVal) : JSVal × JSVal :=
  match promise with
  | .ok data => (data, .vnull)
  | .error error => (.vnull, error)

/-! ## Claim theorems -/

/-- C10: for every promise `p`, the helper `to(p)` never rejects (it is a
total function into a pair): it settles to `[v, null]` when `p` fulfills
with `v` and to `[null, e]` when `p` rejects with reason `e`. -/
theorem to_settles_to_pair (v e : JSVal) :
    «to» (.ok v) = (v, .vnull) ∧ «to» (.error e) = (.vnull, e) :=
  ⟨rfl, rfl⟩

/-- C2: decoding a non-null object that carries an `id` field returns that
object itself — the function returns its argument unchanged, which in
JavaScript is the same reference (`decode(k) === k`). -/
theorem extractSWRKey_object_identity (fields : List (String × JSVal))
    (h : JSVal.hasField "id" (.vobj fields) = true) :
    extractSWRKey (.vobj fields) = some (.vobj fields) := by
  simp [extractSWRKey, h]

theorem extractSWRKey_object_identity_witness :
    JSVal.hasField "id" (.vobj [("id", .vstr "user-1"), ("group", .vstr "users"),
      ("data", .vobj [("name", .vstr "John")])]) = true ∧
    extractSWRKey (.vobj [("id", .vstr "user-1"), ("group", .vstr "users"),
      ("data", .vobj [("name", .vstr "John")])]) =
      some (.vobj [("id", .vstr "user-1"), ("group", .vstr "users"),
        ("data", .vobj [("name", .vstr "John")])]) :=
  ⟨by decide, extractSWRKey_object_identity _ (by decide)⟩

/-- Whether any of `extractSWRKey`'s three strategies accepts the input:
a direct object carrying `id`, a legacy serialized string, or a strict-JSON
object carrying `id`. -/
def matchesAnyStrategy : JSVal → Bool
  | .vobj fs => JSVal.hasField "id" (.vobj fs)
  | .vstr s =>
      (ExtractSWRKey.tryCurrentFormat s.toList).isSome ||
        (ExtractSWRKey.tryJSONFormat s).isSome
  | _ => false

/-- C9: `extractSWRKey` is total by construction (a function into `Option`,
with `JSON.parse` failures absorbed by the parser's `Option` result), and on
any input accepted by none of the three strategies it returns `null` rather
than raising. -/
theorem extractSWRKey_null_on_no_match (v : JSVal)
    (h : matchesAnyStrategy v = false) : extractSWRKey v = none := by
  cases v with
  | vobj fs =>
      simp only [matchesAnyStrategy] at h
      simp [extractSWRKey, h, ExtractSWRKey.decodeNonObject]
  | vstr s =>
      simp only [matchesAnyStrategy, Bool.or_eq_false_iff, Option.not_isSome,
        Option.isNone_iff_eq_none] at h
      simp [extractSWRKey, ExtractSWRKey.decodeNonObject, h.2,
        show ExtractSWRKey.tryCurrentFormat s.data = none from h.1]
  | vundefined => rfl
  | vnull => rfl
  | vbool b => rfl
  | vnum q => rfl
  | varr es => rfl

/-- C7 counterexample: for a context whose key has the present — but empty —
id `""`, the claim's `context.key.id ?? "resource"` formula demands
`Failed to add . Please try again.`, yet `getUserMessage` falls back on any
falsy id (the code uses `||`, not `??`) and produces
`Failed to add resource. Please try again.`. -/
theorem getUserMessage_empty_id_counterexample :
    MutationError.getUserMessage
      ⟨"m", ⟨.create, some ⟨"", none, .vstr "/api"⟩, none, none, 0⟩, .vnull⟩ =
        "Failed to add resource. Please try again." ∧
    MutationError.getUserMessage
      ⟨"m", ⟨.create, some ⟨"", none, .vstr "/api"⟩, none, none, 0⟩, .vnull⟩ ≠
        "Failed to add " ++ "" ++ ". Please try again." := by
  refine ⟨rfl, ?_⟩
  decide

/-- C7 (amended): `getUserMessage()` formats
`Failed to {verb} {resource}. Please try again.` with verb add/update/delete
for create/update/delete, where `resource` is `context.key.id` when the key
is present and its id is truthy, and the fallback `"resource"` whenever the
key is absent or its id is falsy (the empty string included): the code
computes `key?.id || "resource"`. -/
theorem getUserMessage_formats (e : MutationError) :
    (∀ k, e.context.key = some k → k.id ≠ "" →
        e.getUserMessage = "Failed to " ++
          (match e.context.operation with
           | .create => "add"
           | .update => "update"
           | .delete => "delete") ++ " " ++ k.id ++ ". Please try again.") ∧
    ((e.context.key = none ∨ ∃ k, e.context.key = some k ∧ k.id = "") →
        e.getUserMessage = "Failed to " ++
          (match e.context.operation with
           | .create => "add"
           | .update => "update"
           | .delete => "delete") ++ " " ++ "resource" ++ ". Please try again.") := by
  constructor
  · intro k hk hid
    simp [MutationError.getUserMessage, hk, hid]
  · intro hfall
    rcases hfall with hnone | ⟨k, hk, hid⟩
    · simp [MutationError.getUserMessage, hnone]
    · simp [MutationError.getUserMessage, hk, hid]

theorem getUserMessage_formats_witness :
    MutationError.getUserMessage
        ⟨"m", ⟨.delete, some ⟨"todos", none, .vstr "/api/todos"⟩, none, none, 0⟩, .vnull⟩ =
      "Failed to " ++ "delete" ++ " " ++ "todos" ++ ". Please try again." :=
  (getUserMessage_formats
      ⟨"m", ⟨.delete, some ⟨"todos", none, .vstr "/api/todos"⟩, none, none, 0⟩, .vnull⟩).1
    ⟨"todos", none, .vstr "/api/todos"⟩ rfl (by decide)

/-- C5 counterexample: `mutateById("user-1", 0)` provides a `newValue`
argument and no explicit `revalidate` option, yet — because the code tests
truthiness (`newData ? () => newData : undefined` and `!newData`), not
presence — the underlying mutate receives no updater and `revalidate: true`,
contradicting the claimed constant updater with `revalidate: false`. -/
theorem mutateById_falsy_newValue_counterexample :
    (mutateByIdCall (.inl "user-1") (some (.vnum 0)) none).updater = none ∧
    (mutateByIdCall (.inl "user-1") (some (.vnum 0)) none).revalidate = some true ∧
    ¬ ((mutateByIdCall (.inl "user-1") (some (.vnum 0)) none).updater =
          some (.vnum 0) ∧
        (mutateByIdCall (.inl "user-1") (some (.vnum 0)) none).revalidate =
          some false) := by
  refine ⟨rfl, rfl, ?_⟩
  intro h
  simpa [mutateByIdCall, JSVal.jsTruthy] using h.1

/-- C5 (amended): for `mutateById` and `mutateByGroup` with no explicit
`revalidate` option, a provided **truthy** `newValue` yields a
constant-returning updater and `revalidate: false`, while an omitted **or
falsy** `newValue` yields no updater and `revalidate: true`; an explicit
`revalidate` option always overrides the default. -/
theorem mutate_batch_updater_and_revalidate_defaults (ids : String ⊕ List String)
    (newData : Option JSVal) (optRevalidate : Option Bool) :
    (∀ v, newData = some v → JSVal.jsTruthy v = true → optRevalidate = none →
        (mutateByIdCall ids newData none).updater = some v ∧
        (mutateByIdCall ids newData none).revalidate = some false ∧
        (mutateByGroupCall ids newData none).updater = some v ∧
        (mutateByGroupCall ids newData none).revalidate = some false) ∧
    ((newData = none ∨ ∃ v, newData = some v ∧ JSVal.jsTruthy v = false) →
        (mutateByIdCall ids newData none).updater = none ∧
        (mutateByIdCall ids newData none).revalidate = some true ∧
        (mutateByGroupCall ids newData none).updater = none ∧
        (mutateByGroupCall ids newData none).revalidate = some true) ∧
    (∀ b, optRevalidate = some b →
        (mutateByIdCall ids newData optRevalidate).revalidate = some b ∧
        (mutateByGroupCall ids newData optRevalidate).revalidate = some b) := by
  refine ⟨?_, ?_, ?_⟩
  · intro v hv htr _
    subst hv
    simp [mutateByIdCall, mutateByGroupCall, htr]
  · intro hfall
    rcases hfall with hnone | ⟨v, hv, hf⟩
    · subst hnone
      simp [mutateByIdCall, mutateByGroupCall]
    · subst hv
      simp [mutateByIdCall, mutateByGroupCall, hf]
  · intro b hb
    subst hb
    simp [mutateByIdCall, mutateByGroupCall]

theorem mutate_batch_defaults_witness :
    (mutateByIdCall (.inl "todos") (some (.vobj [("name", .vstr "x")])) none).updater =
        some (.vobj [("name", .vstr "x")]) ∧
      (mutateByIdCall (.inl "todos") (some (.vobj [("name", .vstr "x")])) none).revalidate =
        some false ∧
      (mutateByGroupCall (.inl "todos") (some (.vobj [("name", .vstr "x")])) none).updater =
        some (.vobj [("name", .vstr "x")]) ∧
      (mutateByGroupCall (.inl "todos") (some (.vobj [("name", .vstr "x")])) none).revalidate =
        some false :=
  (mutate_batch_updater_and_revalidate_defaults (.inl "todos")
      (some (.vobj [("name", .vstr "x")])) none).1
    (.vobj [("name", .vstr "x")]) rfl (by decide) rfl

/-- C6 counterexample: with the preserved-id set supplied as the scalar
string `""` (the set containing the empty id), the key `{id: ""}` decodes
successfully and its id is in the preserved set, yet the match predicate
still selects it for clearing — the code's truthiness normalization turns
`""` into `null` ("clear everything"). -/
theorem resetCache_empty_string_counterexample :
    extractSWRKey (.vobj [("id", .vstr "")]) = some (.vobj [("id", .vstr "")]) ∧
    [""].contains "" = true ∧
    (resetCacheCall (.str "")).pred (.vobj [("id", .vstr "")]) = true := by
  refine ⟨by decide, by decide, ?_⟩
  decide

/-- C6 (amended): `resetCache` always hands the underlying mutate
`undefined` data with `revalidate: false`; whenever the preserved-keys
argument normalizes to an actual id list (an array, a non-empty string, or
an omitted argument's `[]` default) the match predicate selects for clearing
exactly the entries that fail to decode or whose decoded `id` is not a
string in the list; a `null` — or, by truthiness, `""` — argument makes the
predicate select everything. -/
theorem resetCache_pred_spec (arg : PreservedKeysArg) (key : JSVal) :
    (resetCacheCall arg).updater = none ∧
    (resetCacheCall arg).revalidate = some false ∧
    (normalizePreserved arg = none → (resetCacheCall arg).pred key = true) ∧
    (∀ ks, normalizePreserved arg = some ks →
      ((resetCacheCall arg).pred key = true ↔
        (extractSWRKey key = none ∨
          ∃ extracted, extractSWRKey key = some extracted ∧
            (match extracted.getField "id" with
             | some (.vstr s) => ks.contains s
             | _ => false) = false))) := by
  refine ⟨rfl, rfl, ?_, ?_⟩
  · intro hnone
    simp [resetCacheCall, hnone]
  · intro ks hks
    simp only [resetCacheCall, hks]
    cases hex : extractSWRKey key with
    | none => simp
    | some extracted =>
        simp only [hex, Bool.not_eq_true']
        constructor
        · intro h
          exact Or.inr ⟨extracted, rfl, h⟩
        · rintro (h | ⟨e, he, hmatch⟩)
          · exact absurd h (by simp)
          · cases he
            exact hmatch

theorem resetCache_pred_spec_witness :
    (resetCacheCall (.list ["user-1", "user-2"])).updater = none ∧
    (resetCacheCall (.list ["user-1", "user-2"])).revalidate = some false ∧
    ((resetCacheCall (.list ["user-1", "user-2"])).pred
        (.vobj [("id", .vstr "user-3")]) = true ↔
      (extractSWRKey (.vobj [("id", .vstr "user-3")]) = none ∨
        ∃ extracted, extractSWRKey (.vobj [("id", .vstr "user-3")]) = some extracted ∧
          (match extracted.getField "id" with
           | some (.vstr s) => ["user-1", "user-2"].contains s
           | _ => false) = false)) :=
  ⟨(resetCache_pred_spec (.list ["user-1", "user-2"]) (.vobj [("id", .vstr "user-3")])).1,
    (resetCache_pred_spec (.list ["user-1", "user-2"]) (.vobj [("id", .vstr "user-3")])).2.1,
    (resetCache_pred_spec (.list ["user-1", "user-2"]) (.vobj [("id", .vstr "user-3")])).2.2.2
      ["user-1", "user-2"] rfl⟩

/-- Deep-equal values have the same JavaScript truthiness: primitives are
deep-equal only when strictly equal, and objects are always truthy. -/
theorem deepEqual_truthy_eq (a b : JSVal) (h : deepEqual a b = true) :
    JSVal.jsTruthy a = JSVal.jsTruthy b := by
  unfold deepEqual at h
  split at h
  · next heq => rw [heq]
  · split at h
    · next => rw [of_decide_eq_true h]
    · split at h
      · exact absurd h (by simp)
      · next hno _ =>
          push_neg at hno
          cases a <;> cases b <;>
            simp_all [JSVal.isObjectLike, JSVal.jsTruthy]

/-- C4: the stabilizer returns `null` when the key is null or its id/data
is falsy; it returns the previous object (same reference, witnessed by the
identity token) exactly when a previous exists with strictly equal `id` and
`group` and deep-equal `data`; and otherwise it returns a newly constructed
`{id, group, data}` object (a fresh reference).  `hprev` records that the
previous value is a prior output of the stabilizer (truthy id and data) and
that `fresh` is indeed a new identity. -/
theorem useStableKey_spec (key : Option SKey) (prev : Option RefSKey) (fresh : Nat)
    (hprev : ∀ p, prev = some p →
      (p.val.id ≠ "" ∧ JSVal.jsTruthy p.val.data = true) ∧ p.ref ≠ fresh) :
    ((key = none ∨ ∃ k, key = some k ∧ (k.id = "" ∨ JSVal.jsTruthy k.data = false)) →
        useStableKey key prev fresh = none) ∧
    (∀ p k, prev = some p → key = some k →
        (useStableKey key prev fresh = some p ↔
          p.val.id = k.id ∧ p.val.group = k.group ∧ deepEqual p.val.data k.data = true)) ∧
    (∀ k, key = some k → k.id ≠ "" → JSVal.jsTruthy k.data = true →
        (∀ p, prev = some p →
          ¬ (p.val.id = k.id ∧ p.val.group = k.group ∧ deepEqual p.val.data k.data = true)) →
        useStableKey key prev fresh = some ⟨fresh, k⟩) := by
  refine ⟨?_, ?_, ?_⟩
  · rintro (hnone | ⟨k, hk, hbad⟩)
    · simp [useStableKey, hnone]
    · subst hk
      rcases hbad with hid | hdata
      · simp [useStableKey, hid]
      · simp [useStableKey, hdata]
  · intro p k hp hk
    subst hp; subst hk
    constructor
    · intro hres
      by_cases hvalid : k.id = "" ∨ JSVal.jsTruthy k.data = false
      · rcases hvalid with hid | hdata
        · simp [useStableKey, hid] at hres
        · simp [useStableKey, hdata] at hres
      · push_neg at hvalid
        simp only [useStableKey, Bool.not_eq_false] at hres
        rw [if_neg (by simp [hvalid.1, hvalid.2])] at hres
        by_cases hmatch : p.val.id = k.id ∧ p.val.group = k.group ∧
            deepEqual p.val.data k.data = true
        · exact hmatch
        · rw [if_neg hmatch] at hres
          simp only [Option.some.injEq] at hres
          exact absurd ((congrArg RefSKey.ref hres).symm) (hprev p rfl).2
    · intro hmatch
      have hval := (hprev p rfl).1
      have hid : k.id ≠ "" := hmatch.1 ▸ hval.1
      have hdata : JSVal.jsTruthy k.data = true :=
        (deepEqual_truthy_eq p.val.data k.data hmatch.2.2) ▸ hval.2
      simp only [useStableKey]
      rw [if_neg (by simp [hid, hdata]), if_pos hmatch]
  · intro k hk hid hdata hnomatch
    subst hk
    cases hp : prev with
    | none => simp [useStableKey, hid, hdata]
    | some p =>
        have hnm := hnomatch p hp
        simp [useStableKey, hid, hdata, hnm]

theorem useStableKey_spec_witness :
    (∀ p₀, (some (RefSKey.mk 0 ⟨"t", none, .vobj [("u", .vnum 1)]⟩) : Option RefSKey) =
        some p₀ →
      (p₀.val.id ≠ "" ∧ JSVal.jsTruthy p₀.val.data = true) ∧ p₀.ref ≠ 1) ∧
    (useStableKey (some ⟨"t", none, .vobj [("u", .vnum 1)]⟩)
        (some (RefSKey.mk 0 ⟨"t", none, .vobj [("u", .vnum 1)]⟩)) 1 =
      some (RefSKey.mk 0 ⟨"t", none, .vobj [("u", .vnum 1)]⟩)) := by
  have hprev : ∀ p₀, (some (RefSKey.mk 0 ⟨"t", none, .vobj [("u", .vnum 1)]⟩) :
      Option RefSKey) = some p₀ →
      (p₀.val.id ≠ "" ∧ JSVal.jsTruthy p₀.val.data = true) ∧ p₀.ref ≠ 1 := by
    rintro p₀ hp₀
    cases hp₀
    exact ⟨⟨by decide, by decide⟩, by decide⟩
  refine ⟨hprev, ?_⟩
  exact ((useStableKey_spec (some ⟨"t", none, .vobj [("u", .vnum 1)]⟩)
      (some (RefSKey.mk 0 ⟨"t", none, .vobj [("u", .vnum 1)]⟩)) 1 hprev).2.1
      (RefSKey.mk 0 ⟨"t", none, .vobj [("u", .vnum 1)]⟩)
      ⟨"t", none, .vobj [("u", .vnum 1)]⟩ rfl rfl).mpr ⟨rfl, rfl, by decide⟩

/-- Reading back a stored value: the write is visible at its key. -/
theorem cacheRead_cacheStore_self (cache : CacheMap) (k : SKey) (v : JSVal) :
    cacheRead (cacheStore cache (some k) v) (some k) = v := by
  simp [cacheRead, cacheStore, List.lookup]

/-- C1: with an optimistic transform configured, rollback-on-error enabled
(the default) and a rejecting remote delete, `useSWRDelete`'s trigger leaves
the cache entry for the stable key at the value it held before the
optimistic write, and rejects with an error whose `name` is the
`"MutationError"` discriminator and whose `originalError` is the raw
failure.  The two cache writes the trigger performs are assumed to succeed
(`wo` fields `none`), which is the situation the claim describes. -/
theorem triggerDelete_rollback_restores (k : SKey)
    (f : JSVal → JSVal → JSVal) (rawErr : JSVal) (wo : WriteOutcomes)
    (now : Nat) (cache : CacheMap) (id : JSVal)
    (hw1 : wo.optimisticWrite = none) (hw2 : wo.rollbackWrite = none) :
    ∃ e, (triggerDelete (some k) (some f) true (.error rawErr) wo true true now
        cache id).1 = .error (.mutation e) ∧
      e.name = "MutationError" ∧
      e.originalError = rawErr ∧
      cacheRead (triggerDelete (some k) (some f) true (.error rawErr) wo true true now
        cache id).2 (some k) = cacheRead cache (some k) := by
  refine ⟨createMutationError .delete (some k) rawErr none (some id) now, ?_, rfl, rfl, ?_⟩
  · simp [triggerDelete, hw1, hw2]
  · simp [triggerDelete, hw1, hw2, cacheRead_cacheStore_self]

theorem triggerDelete_rollback_restores_witness :
    ∃ e, (triggerDelete (some ⟨"todos", none, .vstr "/api/todos"⟩)
        (some (fun current _ =>
          match current with
          | .varr es => .varr (es.filter (fun item =>
              item.getField "id" != some (.vnum 1)))
          | other => other))
        true (.error (.vstr "network down")) {} true true 7
        [(⟨"todos", none, .vstr "/api/todos"⟩,
          .varr [.vobj [("id", .vnum 1)], .vobj [("id", .vnum 2)]])]
        (.vnum 1)).1 = .error (.mutation e) ∧
      e.name = "MutationError" ∧
      e.originalError = .vstr "network down" ∧
      cacheRead (triggerDelete (some ⟨"todos", none, .vstr "/api/todos"⟩)
        (some (fun current _ =>
          match current with
          | .varr es => .varr (es.filter (fun item =>
              item.getField "id" != some (.vnum 1)))
          | other => other))
        true (.error (.vstr "network down")) {} true true 7
        [(⟨"todos", none, .vstr "/api/todos"⟩,
          .varr [.vobj [("id", .vnum 1)], .vobj [("id", .vnum 2)]])]
        (.vnum 1)).2 (some ⟨"todos", none, .vstr "/api/todos"⟩) =
          cacheRead [(⟨"todos", none, .vstr "/api/todos"⟩,
            .varr [.vobj [("id", .vnum 1)], .vobj [("id", .vnum 2)]])]
            (some ⟨"todos", none, .vstr "/api/todos"⟩) :=
  triggerDelete_rollback_restores ⟨"todos", none, .vstr "/api/todos"⟩
    (fun current _ =>
      match current with
      | .varr es => .varr (es.filter (fun item =>
          item.getField "id" != some (.vnum 1)))
      | other => other)
    (.vstr "network down") {} 7
    [(⟨"todos", none, .vstr "/api/todos"⟩,
      .varr [.vobj [("id", .vnum 1)], .vobj [("id", .vnum 2)]])]
    (.vnum 1) rfl rfl

/-- C8 counterexample: when the remote delete rejects and the rollback
cache write itself then rejects, the trigger's caller receives the raw
rollback-write failure, not a `MutationError` — so "the error delivered to
the caller is always a MutationError" fails for this hook-trigger failure.
(§7 of the spec itself records this as the known rollback-failure gap.) -/
theorem trigger_rollback_failure_raw_counterexample :
    (triggerDelete (some ⟨"todos", none, .vstr "/api/todos"⟩)
        (some (fun current _ => current)) true (.error (.vstr "remote failed"))
        { rollbackWrite := some (.vstr "cache write failed") } true true 0
        [] (.vnum 1)).1 = .error (.raw (.vstr "cache write failed")) ∧
    JSException.isMutationError (.raw (.vstr "cache write failed")) = false := by
  exact ⟨rfl, rfl⟩

/-- C8 (amended): provided the optimistic-apply and rollback cache writes
themselves do not reject (when one does, its raw failure propagates — the
known gap), every failure of a hook trigger is delivered as a
`MutationError` whose `originalError` is the raw cause (the remote
rejection, or the rejected in-`try` revalidation call); and every failure of
`mutateById`/`mutateByGroup`/`resetCache` is delivered as a `MutationError`
wrapping the underlying mutate rejection. -/
theorem mutation_failures_wrapped (stableKey : Option SKey)
    (opt : Option (JSVal → JSVal → JSVal)) (rollbackOnError : Bool)
    (remote : Except JSVal JSVal) (wo : WriteOutcomes) (m0 m1 : Bool) (now : Nat)
    (cache : CacheMap) (id data : JSVal) (ids : String ⊕ List String)
    (newData : Option JSVal) (arg : PreservedKeysArg) (cause : JSVal)
    (hw1 : wo.optimisticWrite = none) (hw2 : wo.rollbackWrite = none) :
    (∀ ex, (triggerDelete stableKey opt rollbackOnError remote wo m0 m1 now
        cache id).1 = .error ex →
      ∃ e, ex = .mutation e ∧ e.name = "MutationError" ∧
        (remote = .error e.originalError ∨ wo.revalidateCall = some e.originalError)) ∧
    (∀ ex, (triggerCreate stableKey opt rollbackOnError remote wo m0 m1 now
        cache data).1 = .error ex →
      ∃ e, ex = .mutation e ∧ e.name = "MutationError" ∧
        (remote = .error e.originalError ∨ wo.revalidateCall = some e.originalError)) ∧
    (∀ ex, (triggerUpdate stableKey opt rollbackOnError remote wo m0 m1 now
        cache id data).1 = .error ex →
      ∃ e, ex = .mutation e ∧ e.name = "MutationError" ∧
        (remote = .error e.originalError ∨ wo.revalidateCall = some e.originalError)) ∧
    (∀ r, mutateByIdResult ids newData (.error cause) now = .error r →
      r.name = "MutationError" ∧ r.originalError = cause) ∧
    (∀ r, mutateByGroupResult ids newData (.error cause) now = .error r →
      r.name = "MutationError" ∧ r.originalError = cause) ∧
    (∀ r, resetCacheResult arg (.error cause) now = .error r →
      r.name = "MutationError" ∧ r.originalError = cause) := by
  refine ⟨?_, ?_, ?_, ?_, ?_, ?_⟩
  · intro ex hex
    cases m0 with
    | false => simp [triggerDelete] at hex
    | true =>
        cases hopt : opt with
        | none =>
            simp only [triggerDelete, hopt, hw1, hw2] at hex
            cases remote with
            | error err =>
                simp only [Bool.and_false] at hex
                simp at hex
                exact ⟨_, hex.symm, rfl, Or.inl rfl⟩
            | ok result =>
                cases m1 with
                | false => simp at hex
                | true =>
                    cases hrv : wo.revalidateCall with
                    | none => simp [hrv] at hex
                    | some e =>
                        simp only [hrv] at hex
                        simp at hex
                        exact ⟨_, hex.symm, rfl, Or.inr rfl⟩
        | some f =>
            simp only [triggerDelete, hopt, hw1, hw2] at hex
            cases remote with
            | error err =>
                cases rollbackOnError <;> simp at hex <;>
                  exact ⟨_, hex.symm, rfl, Or.inl rfl⟩
            | ok result =>
                cases m1 with
                | false => simp at hex
                | true =>
                    cases hrv : wo.revalidateCall with
                    | none => simp [hrv] at hex
                    | some e =>
                        simp only [hrv] at hex
                        cases rollbackOnError <;> simp at hex <;>
                          exact ⟨_, hex.symm, rfl, Or.inr rfl⟩
  · intro ex hex
    cases m0 with
    | false => simp [triggerCreate] at hex
    | true =>
        cases hopt : opt with
        | none =>
            simp only [triggerCreate, hopt, hw1, hw2] at hex
            cases remote with
            | error err =>
                simp at hex
                exact ⟨_, hex.symm, rfl, Or.inl rfl⟩
            | ok result =>
                cases m1 with
                | false => simp at hex
                | true =>
                    cases hrv : wo.revalidateCall with
                    | none => simp [hrv] at hex
                    | some e =>
                        simp only [hrv] at hex
                        simp at hex
                        exact ⟨_, hex.symm, rfl, Or.inr rfl⟩
        | some f =>
            simp only [triggerCreate, hopt, hw1, hw2] at hex
            cases remote with
            | error err =>
                cases rollbackOnError <;> simp at hex <;>
                  exact ⟨_, hex.symm, rfl, Or.inl rfl⟩
            | ok result =>
                cases m1 with
                | false => simp at hex
                | true =>
                    cases hrv : wo.revalidateCall with
                    | none => simp [hrv] at hex
                    | some e =>
                        simp only [hrv] at hex
                        cases rollbackOnError <;> simp at hex <;>
                          exact ⟨_, hex.symm, rfl, Or.inr rfl⟩
  · intro ex hex
    cases m0 with
    | false => simp [triggerUpdate] at hex
    | true =>
        cases hopt : opt with
        | none =>
            simp only [triggerUpdate, hopt, hw1, hw2] at hex
            cases remote with
            | error err =>
                simp at hex
                exact ⟨_, hex.symm, rfl, Or.inl rfl⟩
            | ok result =>
                cases m1 with
                | false => simp at hex
                | true =>
                    cases hrv : wo.revalidateCall with
                    | none => simp [hrv] at hex
                    | some e =>
                        simp only [hrv] at hex
                        simp at hex
                        exact ⟨_, hex.symm, rfl, Or.inr rfl⟩
        | some f =>
            simp only [triggerUpdate, hopt, hw1, hw2] at hex
            cases remote with
            | error err =>
                cases rollbackOnError <;> simp at hex <;>
                  exact ⟨_, hex.symm, rfl, Or.inl rfl⟩
            | ok result =>
                cases m1 with
                | false => simp at hex
                | true =>
                    cases hrv : wo.revalidateCall with
                    | none => simp [hrv] at hex
                    | some e =>
                        simp only [hrv] at hex
                        cases rollbackOnError <;> simp at hex <;>
                          exact ⟨_, hex.symm, rfl, Or.inr rfl⟩
  · intro r hr
    simp only [mutateByIdResult, Except.error.injEq] at hr
    exact ⟨rfl, by rw [← hr]⟩
  · intro r hr
    simp only [mutateByGroupResult, Except.error.injEq] at hr
    exact ⟨rfl, by rw [← hr]⟩
  · intro r hr
    simp only [resetCacheResult, Except.error.injEq] at hr
    exact ⟨rfl, by rw [← hr]⟩

theorem mutation_failures_wrapped_witness :
    ∃ e, (Except.error (.mutation e) : Except JSException JSVal) =
        (triggerDelete (some ⟨"todos", none, .vstr "/api/todos"⟩) none true
          (.error (.vstr "boom")) {} true true 0 [] (.vnum 1)).1 ∧
      e.name = "MutationError" ∧
      ((Except.error (JSVal.vstr "boom") : Except JSVal JSVal) =
          .error e.originalError ∨
        ({} : WriteOutcomes).revalidateCall = some e.originalError) := by
  obtain ⟨e, he, hn, ho⟩ :=
    (mutation_failures_wrapped (some ⟨"todos", none, .vstr "/api/todos"⟩) none true
        (.error (.vstr "boom")) {} true true 0 [] (.vnum 1) (.vnum 1)
        (.inl "todos") none .undefinedArg (.vstr "boom") rfl rfl).1
      (.mutation (createMutationError .delete (some ⟨"todos", none, .vstr "/api/todos"⟩)
        (.vstr "boom") none (some (.vnum 1)) 0)) rfl
  exact ⟨e, by rw [← he]; rfl, hn, ho⟩

theorem extractSWRKey_null_on_no_match_witness :
    matchesAnyStrategy (.vstr "simple-key") = false ∧
    matchesAnyStrategy (.vobj [("name", .vstr "John")]) = false ∧
    matchesAnyStrategy (.vnum 5) = false ∧
    extractSWRKey (.vstr "simple-key") = none ∧
    extractSWRKey (.vobj [("name", .vstr "John")]) = none ∧
    extractSWRKey (.vnum 5) = none :=
  ⟨by decide, by decide, by decide,
    extractSWRKey_null_on_no_match _ (by decide),
    extractSWRKey_null_on_no_match _ (by decide),
    extractSWRKey_null_on_no_match _ (by decide)⟩

/-! ## Round-trip lemmas for the legacy serialized format (claim C3) -/

namespace ExtractSWRKey

/-- An alphanumeric character is distinct from the syntax characters of the
serialized format. -/
theorem alnum_ne (c x : Char) (hc : isAlnumChar c = true) (hx : isAlnumChar x = false) :
    c ≠ x := by
  intro h
  rw [h] at hc
  exact absurd (hx ▸ hc) (by simp)

theorem beq_false_of_alnum (c x : Char) (hc : isAlnumChar c = true)
    (hx : isAlnumChar x = false) : (c == x) = false ∧ (x == c) = false := by
  have hne := alnum_ne c x hc hx
  exact ⟨beq_eq_false_iff_ne.mpr hne, beq_eq_false_iff_ne.mpr (Ne.symm hne)⟩

/-- Alphanumeric strings contain no backslash, so unescaping them is the
identity. -/
theorem unescapeChars_id (s : List Char) (h : ∀ c ∈ s, (c = '\\') = False) :
    unescapeChars s = s := by
  induction s with
  | nil => rfl
  | cons c rest ih =>
      have hc : ¬ c = '\\' := by simpa using h c (List.mem_cons_self c rest)
      have hrest : ∀ x ∈ rest, (x = '\\') = False :=
        fun x hx => h x (List.mem_cons_of_mem _ hx)
      cases rest with
      | nil => rfl
      | cons e rest2 =>
          rw [unescapeChars, if_neg hc, ih hrest]

/-- Greedy quoted-capture on clean content: consumes exactly the content up
to the closing quote. -/
theorem captureQuoted_clean (content rest : List Char)
    (h : ∀ c ∈ content, (c = '"') = False ∧ (c = '\\') = False) :
    captureQuoted (content ++ '"' :: rest) = some (content, rest) := by
  induction content with
  | nil =>
      cases rest with
      | nil => rfl
      | cons r rs => rw [List.nil_append, captureQuoted, if_pos rfl]
  | cons c cs ih =>
      have hc := h c (List.mem_cons_self c cs)
      have hcs : ∀ x ∈ cs, (x = '"') = False ∧ (x = '\\') = False :=
        fun x hx => h x (List.mem_cons_of_mem _ hx)
      have hq : ¬ c = '"' := by simpa using hc.1
      have hb : ¬ c = '\\' := by simpa using hc.2
      cases cs with
      | nil =>
          cases rest with
          | nil =>
              show captureQuoted [c, '"'] = some ([c], [])
              rw [captureQuoted, if_neg hq, if_neg hb]
              simp [captureQuoted]
          | cons r rs =>
              show captureQuoted (c :: '"' :: r :: rs) = some ([c], r :: rs)
              rw [captureQuoted, if_neg hq, if_neg hb]
              simp [captureQuoted]
      | cons e es =>
          have : (c :: (e :: es) ++ '"' :: rest) =
              c :: ((e :: es) ++ '"' :: rest) := rfl
          rw [this]
          have hlist : (e :: es) ++ '"' :: rest = e :: (es ++ '"' :: rest) := rfl
          rw [hlist, captureQuoted, if_neg hq, if_neg hb, ← hlist, ih hcs]
          rfl

end ExtractSWRKey

namespace ExtractSWRKey

/-- A segment pattern `w:"` (alphanumeric word, colon, quote) can never
match starting inside an alphanumeric block that is terminated by a quote:
the colon would have to fall on an alphanumeric character or on the
terminating quote. -/
theorem pattern_not_prefix_in_block :
    ∀ (u w tail v : List Char), (∀ c ∈ u, isAlnumChar c = true) →
      (∀ c ∈ w, isAlnumChar c = true) →
      (w ++ ':' :: tail).isPrefixOf (u ++ '"' :: v) = false := by
  intro u
  induction u with
  | nil =>
      intro w tail v _ hw
      cases w with
      | nil => simp [List.isPrefixOf]
      | cons c w' =>
          have hc := hw c (List.mem_cons_self c w')
          have : (c == '"') = false :=
            (beq_false_of_alnum c '"' hc (by decide)).1
          simp [List.isPrefixOf, this]
  | cons a u' ih =>
      intro w tail v hu hw
      have ha := hu a (List.mem_cons_self a u')
      have hu' : ∀ c ∈ u', isAlnumChar c = true :=
        fun c hc => hu c (List.mem_cons_of_mem _ hc)
      cases w with
      | nil =>
          have : (':' == a) = false :=
            (beq_false_of_alnum a ':' ha (by decide)).2
          simp [List.isPrefixOf, this]
      | cons c w' =>
          have hw' : ∀ x ∈ w', isAlnumChar x = true :=
            fun x hx => hw x (List.mem_cons_of_mem _ hx)
          have hrec := ih w' tail v hu' hw'
          simp [List.isPrefixOf, hrec]

/-- No nonempty suffix of `pre` begins a match of `pat` that may continue
into `s`: the region `pre` is safe to skip when searching for `pat`. -/
def NoStraddle (pat pre s : List Char) : Prop :=
  ∀ t, t <:+ pre → t ≠ [] → pat.isPrefixOf (t ++ s) = false

theorem noStraddle_nil (pat s : List Char) : NoStraddle pat [] s := by
  intro t ht hne
  rw [List.suffix_nil] at ht
  exact absurd ht hne

theorem noStraddle_cons (pat pre s : List Char) (c : Char)
    (h1 : pat.isPrefixOf (c :: (pre ++ s)) = false) (h2 : NoStraddle pat pre s) :
    NoStraddle pat (c :: pre) s := by
  intro t ht hne
  rw [List.suffix_cons_iff] at ht
  rcases ht with rfl | ht
  · simpa using h1
  · exact h2 t ht hne

/-- Decompose a suffix of an append. -/
theorem suffix_append_cases {α : Type} {t a b : List α} (h : t <:+ a ++ b) :
    t <:+ b ∨ ∃ u, u <:+ a ∧ u ≠ [] ∧ t = u ++ b := by
  induction a with
  | nil => exact Or.inl (by simpa using h)
  | cons x a ih =>
      rw [List.cons_append, List.suffix_cons_iff] at h
      rcases h with rfl | h
      · exact Or.inr ⟨x :: a, List.suffix_refl _, by simp, by simp⟩
      · rcases ih h with h' | ⟨u, hu, hne, rfl⟩
        · exact Or.inl h'
        · exact Or.inr ⟨u, hu.trans (List.suffix_cons _ _), hne, rfl⟩

theorem noStraddle_append (pat a b s : List Char)
    (h1 : NoStraddle pat a (b ++ s)) (h2 : NoStraddle pat b s) :
    NoStraddle pat (a ++ b) s := by
  intro t ht hne
  rcases suffix_append_cases ht with h' | ⟨u, hu, hune, rfl⟩
  · exact h2 t h' hne
  · have := h1 u hu hune
    simpa [List.append_assoc] using this

/-- An alphanumeric block terminated by a quote is safe for any segment
pattern `w:"...`. -/
theorem noStraddle_alnum_block (w tail u v : List Char)
    (hw : ∀ c ∈ w, isAlnumChar c = true) (hu : ∀ c ∈ u, isAlnumChar c = true) :
    NoStraddle (w ++ ':' :: tail) u ('"' :: v) := by
  intro t ht _
  exact pattern_not_prefix_in_block t w tail v
    (fun c hc => hu c (ht.subset hc)) hw

theorem findCapture_cons_of_neg (pat s : List Char) (c : Char)
    (h : pat.isPrefixOf (c :: s) = false) :
    findCapture pat (c :: s) = findCapture pat s := by
  simp [findCapture, h]

theorem findCapture_append (pat pre s : List Char) (h : NoStraddle pat pre s) :
    findCapture pat (pre ++ s) = findCapture pat s := by
  induction pre with
  | nil => simp
  | cons c pre ih =>
      have h1 : pat.isPrefixOf (c :: (pre ++ s)) = false := by
        simpa using h (c :: pre) (List.suffix_refl _) (by simp)
      rw [List.cons_append, findCapture_cons_of_neg _ _ _ h1,
        ih (fun t ht hne => h t (ht.trans (List.suffix_cons _ _)) hne)]

theorem findCapture_none (pat s : List Char) (h : NoStraddle pat s []) :
    findCapture pat s = none := by
  have := findCapture_append pat s [] h
  simpa using this

theorem findCapture_prefix (pat body cap rest : List Char) (hne : pat ≠ [])
    (hcap : captureQuoted body = some (cap, rest)) :
    findCapture pat (pat ++ body) = some cap := by
  cases pat with
  | nil => exact absurd rfl hne
  | cons p ps =>
      have hpre : (p :: ps).isPrefixOf ((p :: ps) ++ body) = true := by
        rw [List.isPrefixOf_iff_prefix]
        exact List.prefix_append _ _
      rw [List.cons_append, findCapture, ← List.cons_append, if_pos hpre]
      rw [show ((p :: ps) ++ body).drop (p :: ps).length = body from
        List.drop_left _ _]
      rw [hcap]

end ExtractSWRKey

namespace ExtractSWRKey

theorem isPrefixOf_cons_false (p c : Char) (ps cs : List Char) (h : (p == c) = false) :
    (p :: ps).isPrefixOf (c :: cs) = false := by
  simp [List.isPrefixOf, h]

theorem isPrefixOf_cons2_false (p q c d : Char) (ps cs : List Char)
    (h : (q == d) = false) :
    (p :: q :: ps).isPrefixOf (c :: d :: cs) = false := by
  simp [List.isPrefixOf, h]

theorem alnum_clean (s : List Char) (h : ∀ c ∈ s, isAlnumChar c = true) :
    ∀ c ∈ s, (c = '"') = False ∧ (c = '\\') = False :=
  fun c hc =>
    ⟨eq_false (alnum_ne c '"' (h c hc) (by decide)),
      eq_false (alnum_ne c '\\' (h c hc) (by decide))⟩

/-- A quote-terminated alphanumeric block at the very end of the input is
safe for a segment pattern. -/
theorem noStraddle_final_block (w tail u : List Char)
    (hw : ∀ c ∈ w, isAlnumChar c = true) (hu : ∀ c ∈ u, isAlnumChar c = true)
    (hqe : (w ++ ':' :: tail).isPrefixOf ['"'] = false) :
    NoStraddle (w ++ ':' :: tail) (u ++ ['"']) [] := by
  refine noStraddle_append _ u ['"'] [] ?_ ?_
  · exact noStraddle_alnum_block w tail u [] hw hu
  · refine noStraddle_cons _ [] [] '"' ?_ (noStraddle_nil _ _)
    simpa using hqe

/-- A quote-and-comma-terminated alphanumeric block with more input after
it is safe for a segment pattern. -/
theorem noStraddle_mid_block (w tail u s : List Char)
    (hw : ∀ c ∈ w, isAlnumChar c = true) (hu : ∀ c ∈ u, isAlnumChar c = true)
    (hq : (w ++ ':' :: tail).isPrefixOf ('"' :: ',' :: s) = false)
    (hc : (w ++ ':' :: tail).isPrefixOf (',' :: s) = false) :
    NoStraddle (w ++ ':' :: tail) (u ++ ['"', ',']) s := by
  refine noStraddle_append _ u ['"', ','] s ?_ ?_
  · exact noStraddle_alnum_block w tail u (',' :: s) hw hu
  · refine noStraddle_cons _ [','] s '"' (by simpa using hq) ?_
    exact noStraddle_cons _ [] s ',' (by simpa using hc) (noStraddle_nil _ _)

end ExtractSWRKey

namespace ExtractSWRKey

theorem noStraddle_groupPat_hdr_mid (id s : List Char)
    (hid : ∀ c ∈ id, isAlnumChar c = true) :
    NoStraddle groupPat ('#' :: 'i' :: 'd' :: ':' :: '"' :: (id ++ ['"', ','])) s := by
  refine noStraddle_cons _ _ _ '#' (isPrefixOf_cons_false 'g' '#' _ _ (by decide)) ?_
  refine noStraddle_cons _ _ _ 'i' (isPrefixOf_cons_false 'g' 'i' _ _ (by decide)) ?_
  refine noStraddle_cons _ _ _ 'd' (isPrefixOf_cons_false 'g' 'd' _ _ (by decide)) ?_
  refine noStraddle_cons _ _ _ ':' (isPrefixOf_cons_false 'g' ':' _ _ (by decide)) ?_
  refine noStraddle_cons _ _ _ '"' (isPrefixOf_cons_false 'g' '"' _ _ (by decide)) ?_
  exact noStraddle_mid_block ['g', 'r', 'o', 'u', 'p'] ['"'] id s (by decide) hid
    (isPrefixOf_cons_false 'g' '"' _ _ (by decide))
    (isPrefixOf_cons_false 'g' ',' _ _ (by decide))

theorem noStraddle_groupPat_hdr_final (id : List Char)
    (hid : ∀ c ∈ id, isAlnumChar c = true) :
    NoStraddle groupPat ('#' :: 'i' :: 'd' :: ':' :: '"' :: (id ++ ['"'])) [] := by
  refine noStraddle_cons _ _ _ '#' (isPrefixOf_cons_false 'g' '#' _ _ (by decide)) ?_
  refine noStraddle_cons _ _ _ 'i' (isPrefixOf_cons_false 'g' 'i' _ _ (by decide)) ?_
  refine noStraddle_cons _ _ _ 'd' (isPrefixOf_cons_false 'g' 'd' _ _ (by decide)) ?_
  refine noStraddle_cons _ _ _ ':' (isPrefixOf_cons_false 'g' ':' _ _ (by decide)) ?_
  refine noStraddle_cons _ _ _ '"' (isPrefixOf_cons_false 'g' '"' _ _ (by decide)) ?_
  exact noStraddle_final_block ['g', 'r', 'o', 'u', 'p'] ['"'] id (by decide) hid
    (isPrefixOf_cons_false 'g' '"' _ _ (by decide))

theorem noStraddle_dataPat_hdr_mid (id s : List Char)
    (hid : ∀ c ∈ id, isAlnumChar c = true) :
    NoStraddle dataPat ('#' :: 'i' :: 'd' :: ':' :: '"' :: (id ++ ['"', ','])) s := by
  refine noStraddle_cons _ _ _ '#' (isPrefixOf_cons_false 'd' '#' _ _ (by decide)) ?_
  refine noStraddle_cons _ _ _ 'i' (isPrefixOf_cons_false 'd' 'i' _ _ (by decide)) ?_
  refine noStraddle_cons _ _ _ 'd' (isPrefixOf_cons2_false 'd' 'a' 'd' ':' _ _ (by decide)) ?_
  refine noStraddle_cons _ _ _ ':' (isPrefixOf_cons_false 'd' ':' _ _ (by decide)) ?_
  refine noStraddle_cons _ _ _ '"' (isPrefixOf_cons_false 'd' '"' _ _ (by decide)) ?_
  exact noStraddle_mid_block ['d', 'a', 't', 'a'] ['"'] id s (by decide) hid
    (isPrefixOf_cons_false 'd' '"' _ _ (by decide))
    (isPrefixOf_cons_false 'd' ',' _ _ (by decide))

theorem noStraddle_dataPat_hdr_final (id : List Char)
    (hid : ∀ c ∈ id, isAlnumChar c = true) :
    NoStraddle dataPat ('#' :: 'i' :: 'd' :: ':' :: '"' :: (id ++ ['"'])) [] := by
  refine noStraddle_cons _ _ _ '#' (isPrefixOf_cons_false 'd' '#' _ _ (by decide)) ?_
  refine noStraddle_cons _ _ _ 'i' (isPrefixOf_cons_false 'd' 'i' _ _ (by decide)) ?_
  refine noStraddle_cons _ _ _ 'd' (isPrefixOf_cons2_false 'd' 'a' 'd' ':' _ _ (by decide)) ?_
  refine noStraddle_cons _ _ _ ':' (isPrefixOf_cons_false 'd' ':' _ _ (by decide)) ?_
  refine noStraddle_cons _ _ _ '"' (isPrefixOf_cons_false 'd' '"' _ _ (by decide)) ?_
  exact noStraddle_final_block ['d', 'a', 't', 'a'] ['"'] id (by decide) hid
    (isPrefixOf_cons_false 'd' '"' _ _ (by decide))

theorem noStraddle_dataPat_group_mid (g s : List Char)
    (hg : ∀ c ∈ g, isAlnumChar c = true) :
    NoStraddle dataPat ('g' :: 'r' :: 'o' :: 'u' :: 'p' :: ':' :: '"' :: (g ++ ['"', ','])) s := by
  refine noStraddle_cons _ _ _ 'g' (isPrefixOf_cons_false 'd' 'g' _ _ (by decide)) ?_
  refine noStraddle_cons _ _ _ 'r' (isPrefixOf_cons_false 'd' 'r' _ _ (by decide)) ?_
  refine noStraddle_cons _ _ _ 'o' (isPrefixOf_cons_false 'd' 'o' _ _ (by decide)) ?_
  refine noStraddle_cons _ _ _ 'u' (isPrefixOf_cons_false 'd' 'u' _ _ (by decide)) ?_
  refine noStraddle_cons _ _ _ 'p' (isPrefixOf_cons_false 'd' 'p' _ _ (by decide)) ?_
  refine noStraddle_cons _ _ _ ':' (isPrefixOf_cons_false 'd' ':' _ _ (by decide)) ?_
  refine noStraddle_cons _ _ _ '"' (isPrefixOf_cons_false 'd' '"' _ _ (by decide)) ?_
  exact noStraddle_mid_block ['d', 'a', 't', 'a'] ['"'] g s (by decide) hg
    (isPrefixOf_cons_false 'd' '"' _ _ (by decide))
    (isPrefixOf_cons_false 'd' ',' _ _ (by decide))

theorem noStraddle_dataPat_group_final (g : List Char)
    (hg : ∀ c ∈ g, isAlnumChar c = true) :
    NoStraddle dataPat ('g' :: 'r' :: 'o' :: 'u' :: 'p' :: ':' :: '"' :: (g ++ ['"'])) [] := by
  refine noStraddle_cons _ _ _ 'g' (isPrefixOf_cons_false 'd' 'g' _ _ (by decide)) ?_
  refine noStraddle_cons _ _ _ 'r' (isPrefixOf_cons_false 'd' 'r' _ _ (by decide)) ?_
  refine noStraddle_cons _ _ _ 'o' (isPrefixOf_cons_false 'd' 'o' _ _ (by decide)) ?_
  refine noStraddle_cons _ _ _ 'u' (isPrefixOf_cons_false 'd' 'u' _ _ (by decide)) ?_
  refine noStraddle_cons _ _ _ 'p' (isPrefixOf_cons_false 'd' 'p' _ _ (by decide)) ?_
  refine noStraddle_cons _ _ _ ':' (isPrefixOf_cons_false 'd' ':' _ _ (by decide)) ?_
  refine noStraddle_cons _ _ _ '"' (isPrefixOf_cons_false 'd' '"' _ _ (by decide)) ?_
  exact noStraddle_final_block ['d', 'a', 't', 'a'] ['"'] g (by decide) hg
    (isPrefixOf_cons_false 'd' '"' _ _ (by decide))

theorem noStraddle_groupPat_data_final (d : List Char)
    (hd : ∀ c ∈ d, isAlnumChar c = true) :
    NoStraddle groupPat ('d' :: 'a' :: 't' :: 'a' :: ':' :: '"' :: (d ++ ['"'])) [] := by
  refine noStraddle_cons _ _ _ 'd' (isPrefixOf_cons_false 'g' 'd' _ _ (by decide)) ?_
  refine noStraddle_cons _ _ _ 'a' (isPrefixOf_cons_false 'g' 'a' _ _ (by decide)) ?_
  refine noStraddle_cons _ _ _ 't' (isPrefixOf_cons_false 'g' 't' _ _ (by decide)) ?_
  refine noStraddle_cons _ _ _ 'a' (isPrefixOf_cons_false 'g' 'a' _ _ (by decide)) ?_
  refine noStraddle_cons _ _ _ ':' (isPrefixOf_cons_false 'g' ':' _ _ (by decide)) ?_
  refine noStraddle_cons _ _ _ '"' (isPrefixOf_cons_false 'g' '"' _ _ (by decide)) ?_
  exact noStraddle_final_block ['g', 'r', 'o', 'u', 'p'] ['"'] d (by decide) hd
    (isPrefixOf_cons_false 'g' '"' _ _ (by decide))

end ExtractSWRKey

namespace ExtractSWRKey

/-- Decoding an encoded legacy key recovers the segments exactly (for
ASCII-alphanumeric segment contents), with absent segments decoding to
`undefined`. -/
theorem tryCurrentFormat_encodeKey (id : List Char) (g d : Option (List Char))
    (hid : ∀ c ∈ id, isAlnumChar c = true)
    (hg : ∀ G ∈ g, ∀ c ∈ G, isAlnumChar c = true)
    (hd : ∀ D ∈ d, ∀ c ∈ D, isAlnumChar c = true) :
    tryCurrentFormat (encodeKey id g d) =
      some (.vobj [("id", JSVal.vstr ⟨id⟩),
        ("group", match g with | some G => JSVal.vstr ⟨G⟩ | none => JSVal.vundefined),
        ("data", match d with | some D => JSVal.vstr ⟨D⟩ | none => JSVal.vundefined)]) := by
  have huid : unescapeChars id = id :=
    unescapeChars_id id (fun c hc => (alnum_clean id hid c hc).2)
  have hstart : (['#', 'i', 'd', ':'].isPrefixOf (encodeKey id g d)) = true := by
    cases g <;> cases d <;> simp [encodeKey, List.isPrefixOf]
  rcases g with _ | G <;> rcases d with _ | D
  · -- no group, no data
    have hID : findCapture idPat (encodeKey id none none) = some id := by
      rw [show encodeKey id none none = idPat ++ (id ++ '"' :: []) by
        simp [encodeKey, idPat]]
      exact findCapture_prefix _ _ _ _ (by decide)
        (captureQuoted_clean id [] (alnum_clean id hid))
    have hG : findCapture groupPat (encodeKey id none none) = none := by
      rw [show encodeKey id none none =
          '#' :: 'i' :: 'd' :: ':' :: '"' :: (id ++ ['"']) by simp [encodeKey]]
      exact findCapture_none _ _ (noStraddle_groupPat_hdr_final id hid)
    have hD : findCapture dataPat (encodeKey id none none) = none := by
      rw [show encodeKey id none none =
          '#' :: 'i' :: 'd' :: ':' :: '"' :: (id ++ ['"']) by simp [encodeKey]]
      exact findCapture_none _ _ (noStraddle_dataPat_hdr_final id hid)
    unfold tryCurrentFormat
    rw [if_neg (not_not_intro hstart), hID, hG, hD]
    simp [huid]
  · -- data only
    have hD' := hd D (by simp)
    have huD : unescapeChars D = D :=
      unescapeChars_id D (fun c hc => (alnum_clean D hD' c hc).2)
    have hID : findCapture idPat (encodeKey id none (some D)) = some id := by
      rw [show encodeKey id none (some D) =
          idPat ++ (id ++ '"' :: ',' :: (dataPat ++ (D ++ ['"']))) by
        simp [encodeKey, idPat, dataPat]]
      exact findCapture_prefix _ _ _ _ (by decide)
        (captureQuoted_clean id _ (alnum_clean id hid))
    have hG : findCapture groupPat (encodeKey id none (some D)) = none := by
      rw [show encodeKey id none (some D) =
          ('#' :: 'i' :: 'd' :: ':' :: '"' :: (id ++ ['"', ','])) ++
            ('d' :: 'a' :: 't' :: 'a' :: ':' :: '"' :: (D ++ ['"'])) by
        simp [encodeKey]]
      exact findCapture_none _ _
        (noStraddle_append _ _ _ _ (noStraddle_groupPat_hdr_mid id _ hid)
          (noStraddle_groupPat_data_final D hD'))
    have hDc : findCapture dataPat (encodeKey id none (some D)) = some D := by
      rw [show encodeKey id none (some D) =
          ('#' :: 'i' :: 'd' :: ':' :: '"' :: (id ++ ['"', ','])) ++
            (dataPat ++ (D ++ '"' :: [])) by simp [encodeKey, dataPat]]
      rw [findCapture_append _ _ _ (noStraddle_dataPat_hdr_mid id _ hid)]
      exact findCapture_prefix _ _ _ _ (by decide)
        (captureQuoted_clean D [] (alnum_clean D hD'))
    unfold tryCurrentFormat
    rw [if_neg (not_not_intro hstart), hID, hG, hDc]
    simp [huid, huD]
  · -- group only
    have hG' := hg G (by simp)
    have huG : unescapeChars G = G :=
      unescapeChars_id G (fun c hc => (alnum_clean G hG' c hc).2)
    have hID : findCapture idPat (encodeKey id (some G) none) = some id := by
      rw [show encodeKey id (some G) none =
          idPat ++ (id ++ '"' :: ',' :: (groupPat ++ (G ++ ['"']))) by
        simp [encodeKey, idPat, groupPat]]
      exact findCapture_prefix _ _ _ _ (by decide)
        (captureQuoted_clean id _ (alnum_clean id hid))
    have hGc : findCapture groupPat (encodeKey id (some G) none) = some G := by
      rw [show encodeKey id (some G) none =
          ('#' :: 'i' :: 'd' :: ':' :: '"' :: (id ++ ['"', ','])) ++
            (groupPat ++ (G ++ '"' :: [])) by simp [encodeKey, groupPat]]
      rw [findCapture_append _ _ _ (noStraddle_groupPat_hdr_mid id _ hid)]
      exact findCapture_prefix _ _ _ _ (by decide)
        (captureQuoted_clean G [] (alnum_clean G hG'))
    have hD : findCapture dataPat (encodeKey id (some G) none) = none := by
      rw [show encodeKey id (some G) none =
          (('#' :: 'i' :: 'd' :: ':' :: '"' :: (id ++ ['"', ','])) ++
            ('g' :: 'r' :: 'o' :: 'u' :: 'p' :: ':' :: '"' :: (G ++ ['"']))) by
        simp [encodeKey]]
      exact findCapture_none _ _
        (noStraddle_append _ _ _ _ (noStraddle_dataPat_hdr_mid id _ hid)
          (noStraddle_dataPat_group_final G hG'))
    unfold tryCurrentFormat
    rw [if_neg (not_not_intro hstart), hID, hGc, hD]
    simp [huid, huG]
  · -- group and data
    have hG' := hg G (by simp)
    have hD' := hd D (by simp)
    have huG : unescapeChars G = G :=
      unescapeChars_id G (fun c hc => (alnum_clean G hG' c hc).2)
    have huD : unescapeChars D = D :=
      unescapeChars_id D (fun c hc => (alnum_clean D hD' c hc).2)
    have hID : findCapture idPat (encodeKey id (some G) (some D)) = some id := by
      rw [show encodeKey id (some G) (some D) =
          idPat ++ (id ++ '"' :: ',' ::
            (groupPat ++ (G ++ '"' :: ',' :: (dataPat ++ (D ++ ['"']))))) by
        simp [encodeKey, idPat, groupPat, dataPat]]
      exact findCapture_prefix _ _ _ _ (by decide)
        (captureQuoted_clean id _ (alnum_clean id hid))
    have hGc : findCapture groupPat (encodeKey id (some G) (some D)) = some G := by
      rw [show encodeKey id (some G) (some D) =
          ('#' :: 'i' :: 'd' :: ':' :: '"' :: (id ++ ['"', ','])) ++
            (groupPat ++ (G ++ '"' :: ',' :: (dataPat ++ (D ++ ['"'])))) by
        simp [encodeKey, groupPat, dataPat]]
      rw [findCapture_append _ _ _ (noStraddle_groupPat_hdr_mid id _ hid)]
      exact findCapture_prefix _ _ _ _ (by decide)
        (captureQuoted_clean G _ (alnum_clean G hG'))
    have hDc : findCapture dataPat (encodeKey id (some G) (some D)) = some D := by
      rw [show encodeKey id (some G) (some D) =
          (('#' :: 'i' :: 'd' :: ':' :: '"' :: (id ++ ['"', ','])) ++
            ('g' :: 'r' :: 'o' :: 'u' :: 'p' :: ':' :: '"' :: (G ++ ['"', ',']))) ++
            (dataPat ++ (D ++ '"' :: [])) by simp [encodeKey, dataPat]]
      rw [findCapture_append _ _ _
        (noStraddle_append _ _ _ _ (noStraddle_dataPat_hdr_mid id _ hid)
          (noStraddle_dataPat_group_mid G _ hG'))]
      exact findCapture_prefix _ _ _ _ (by decide)
        (captureQuoted_clean D [] (alnum_clean D hD'))
    unfold tryCurrentFormat
    rw [if_neg (not_not_intro hstart), hID, hGc, hDc]
    simp [huid, huG, huD]

end ExtractSWRKey

/-- Objects compare deep-equal whenever their canonical serializations
agree (the reference-equality shortcut only adds `true` cases that the
serialization comparison also reaches). -/
theorem deepEqual_of_stringify (a b : JSVal) (ha : JSVal.isObjectLike a = true)
    (hb : JSVal.isObjectLike b = true)
    (h : JSVal.jsonStringify a = JSVal.jsonStringify b) :
    deepEqual a b = true := by
  by_cases heq : a = b
  · simp [deepEqual, heq]
  · have hna : JSVal.isNullish a = false := by
      cases a <;> simp_all [JSVal.isObjectLike, JSVal.isNullish]
    have hnb : JSVal.isNullish b = false := by
      cases b <;> simp_all [JSVal.isObjectLike, JSVal.isNullish]
    simp [deepEqual, heq, hna, hnb, ha, hb, h]

open ExtractSWRKey in
/-- C3: encoding a structured key with non-empty ASCII-alphanumeric
`id`/`group`/`data` into the legacy serialized string form and decoding it
with `extractSWRKey` recovers the segments exactly — so the decoded key is
deep-equal to the original — and absent `group`/`data` segments decode to
`undefined`. -/
theorem legacy_roundtrip (id : List Char) (g d : Option (List Char))
    (hid : AlnumNE id) (hg : ∀ G ∈ g, AlnumNE G) (hd : ∀ D ∈ d, AlnumNE D) :
    extractSWRKey (.vstr ⟨encodeKey id g d⟩) =
      some (.vobj [("id", JSVal.vstr ⟨id⟩),
        ("group", match g with | some G => JSVal.vstr ⟨G⟩ | none => JSVal.vundefined),
        ("data", match d with | some D => JSVal.vstr ⟨D⟩ | none => JSVal.vundefined)]) ∧
    deepEqual
      (.vobj [("id", JSVal.vstr ⟨id⟩),
        ("group", match g with | some G => JSVal.vstr ⟨G⟩ | none => JSVal.vundefined),
        ("data", match d with | some D => JSVal.vstr ⟨D⟩ | none => JSVal.vundefined)])
      (legacyKey id g d) = true := by
  have hdec := tryCurrentFormat_encodeKey id g d hid.2
    (fun G hG => (hg G hG).2) (fun D hD => (hd D hD).2)
  constructor
  · simp only [extractSWRKey, ExtractSWRKey.decodeNonObject]
    rw [show (String.mk (encodeKey id g d)).toList = encodeKey id g d from rfl, hdec]
    rcases g with _ | G <;> rcases d with _ | D <;> rfl
  · rcases g with _ | G <;> rcases d with _ | D
    · exact deepEqual_of_stringify _ _ rfl rfl rfl
    · exact deepEqual_of_stringify _ _ rfl rfl rfl
    · exact deepEqual_of_stringify _ _ rfl rfl rfl
    · exact deepEqual_of_stringify _ _ rfl rfl rfl

theorem legacy_roundtrip_witness :
    extractSWRKey (.vstr ⟨encodeKey "user1".toList
        (some "users".toList) (some "data7".toList)⟩) =
      some (.vobj [("id", JSVal.vstr "user1"), ("group", JSVal.vstr "users"),
        ("data", JSVal.vstr "data7")]) ∧
    deepEqual
      (.vobj [("id", JSVal.vstr "user1"), ("group", JSVal.vstr "users"),
        ("data", JSVal.vstr "data7")])
      (legacyKey "user1".toList (some "users".toList) (some "data7".toList)) = true :=
  legacy_roundtrip "user1".toList (some "users".toList) (some "data7".toList)
    (by decide) (by decide) (by decide)
